import Mathlib

/-!
Verification of the per-user workflow of a chat-driven MKVToolNix front end
(`src/bot.py`).  The Python source is shallowly embedded: the module-level
constants become Lean constants, each handler becomes a pure function from the
(optional) per-user session and the incoming event to the new session and the
user-visible reply, and the subprocess-facing utilities are modelled as pure
functions of the data the process run returns (exit code, captured stderr,
which output files exist on disk).
-/

namespace MKVBot

/-! ## Python string/path primitives

`pathlib.PurePath.name`, `.suffix` and `.stem` restricted to POSIX relative
paths, exactly following CPython: `suffix` is `name[i:]` where `i` is the last
index of a dot, provided `0 < i < len(name) - 1`, else the empty string;
`stem` is the complementary prefix. -/

/-- Structural split of a character list on a single separator character,
with CPython `str.split(sep)` semantics (empty pieces kept, `[]` gives one
empty piece). -/
def splitOnChar (sep : Char) : List Char → List (List Char)
  | [] => [[]]
  | c :: rest =>
    let r := splitOnChar sep rest
    if c = sep then [] :: r
    else
      match r with
      | [] => [[c]]
      | h :: t => (c :: h) :: t

/-- `str.split(sep)` for a one-character separator, over `String`. -/
def pySplit (sep : Char) (s : String) : List String :=
  (splitOnChar sep s.toList).map List.asString

/-- `str.lower()` (ASCII range, which covers every string the claims touch). -/
def pyLower (s : String) : String :=
  (s.toList.map Char.toLower).asString

/-- `str.strip()`: CPython strips the six ASCII whitespace characters. -/
def pyIsSpace (c : Char) : Bool :=
  c = ' ' || c = '\t' || c = '\n' || c = '\r' || c = '\x0b' || c = '\x0c'

/-- `str.strip()` over `String`. -/
def pyStrip (s : String) : String :=
  (((s.toList.dropWhile pyIsSpace).reverse.dropWhile pyIsSpace).reverse).asString

/-- `str.startswith(pre)`. -/
def pyStartsWith (pre s : String) : Bool :=
  pre.toList.isPrefixOf s.toList

/-- Structural Boolean infix test on character lists (`sub in s` in Python). -/
def listInfixOf (sub : List Char) : List Char → Bool
  | [] => sub.isEmpty
  | c :: rest => sub.isPrefixOf (c :: rest) || listInfixOf sub rest

/-- Python's `sub in s` substring test. -/
def pyContains (sub s : String) : Bool :=
  listInfixOf sub.toList s.toList

/-- Final path component: drop trailing slashes, then take the part after the
last slash (CPython `PurePath.name` for relative POSIX paths). -/
def pyName (s : String) : String :=
  let t := ((s.toList.reverse.dropWhile (fun c => c = '/')).reverse).asString
  (pySplit '/' t).getLastD ("")

/-- Index of the last dot in a character list, if any. -/
def lastDotIdx (l : List Char) : Option Nat :=
  ((List.range l.length).filter (fun i => l.getD i ' ' = '.')).getLast?

/-- CPython `PurePath.suffix`. -/
def pySuffix (s : String) : String :=
  let n := (pyName s).toList
  match lastDotIdx n with
  | some i => if 0 < i ∧ i + 1 < n.length then (n.drop i).asString else ("")
  | none => ("")

/-- CPython `PurePath.stem`. -/
def pyStem (s : String) : String :=
  let n := (pyName s).toList
  match lastDotIdx n with
  | some i => if 0 < i ∧ i + 1 < n.length then (n.take i).asString else n.asString
  | none => n.asString

/-! ## Module constants (`src/bot.py` lines 32-54) -/

/-- `SUPPORTED_EXTENSIONS`: insertion-ordered dict of media kind to extension
list. -/
def SUPPORTED_EXTENSIONS : List (String × List String) :=
  [("video", [".mkv", ".mp4", ".avi", ".webm", ".mov"]),
   ("audio", [".aac", ".ac3", ".dts", ".mp3", ".opus", ".flac", ".wav"]),
   ("subtitles", [".srt", ".ass", ".ssa", ".vtt", ".pgs", ".sub"])]

/-- The supported-type loop of `handle_file_input`: first dict entry whose
extension list holds `ext` gives the file type; none means unsupported. -/
def lookup_file_type (ext : String) : Option String :=
  (SUPPORTED_EXTENSIONS.find? (fun p => p.2.contains ext)).map (fun p => p.1)

/-- `LANGUAGE_CODES`: insertion-ordered dict of canonical code to accepted
spelling variants. -/
def LANGUAGE_CODES : List (String × List String) :=
  [("hi", ["hi", "hin", "hindi"]),
   ("en", ["en", "eng", "english"]),
   ("ta", ["ta", "tam", "tamil"]),
   ("bn", ["bn", "ben", "bengali"]),
   ("mr", ["mr", "mar", "marathi"]),
   ("gu", ["gu", "guj", "gujarati"]),
   ("kn", ["kn", "kan", "kannada"]),
   ("ml", ["ml", "mal", "malayalam"]),
   ("te", ["te", "tel", "telugu"]),
   ("pa", ["pa", "pan", "punjabi"]),
   ("or", ["or", "ori", "odia"]),
   ("as", ["as", "asm", "assamese"]),
   ("ne", ["ne", "nep", "nepali"]),
   ("sa", ["sa", "san", "sanskrit"]),
   ("ur", ["ur", "urd", "urdu"])]

/-- Dot-delimited segments of the lower-cased extension-stripped base name, as
computed inside `detect_language`. -/
def langSegments (filename : String) : List String :=
  pySplit '.' (pyStem (pyLower filename))

/-- One iteration of the outer loop of `detect_language`: does any variant of
this table entry occur among the segments? -/
def langEntryHit (parts : List String) (p : String × List String) : Bool :=
  p.2.any (fun v => parts.contains v)

/-- `MKVToolNixBot.detect_language` (`src/bot.py` lines 430-440): lower-case
the file name, split the stem on dots, and scan the language table in its
fixed order for the first entry with a variant among the segments. -/
def detect_language (filename : String) : Option String :=
  let parts := langSegments filename
  (LANGUAGE_CODES.find? (langEntryHit parts)).map (fun p => p.1)

/-- The detector the claim's words describe, for comparison with
`detect_language`: scan the dot-delimited segments left to right and return
the canonical code of the first segment that is a spelling variant of some
language. -/
def detect_language_leftmost_segment (filename : String) : Option String :=
  (langSegments filename).findSome?
    (fun seg => (LANGUAGE_CODES.find? (fun q => q.2.contains seg)).map (fun q => q.1))

/-! ## Session data model (`user_sessions`, `src/bot.py` lines 56-57, 161-176) -/

/-- One entry of a session's `files` list, as built in `handle_file_input`
(the live `message` handle is not part of the pure state). -/
structure StagedFile where
  file_name : String
  file_type : String
  file_ext : String
  language : Option String
  deriving DecidableEq, Inhabited

/-- The per-user session dict: `{'files': [...], 'current_operation': None,
'processing': False}`. -/
structure Session where
  files : List StagedFile
  current_operation : Option String
  processing : Bool
  deriving DecidableEq, Inhabited

/-- A fresh session as initialised in `handle_file_input`. -/
def emptySession : Session :=
  { files := [], current_operation := none, processing := false }

/-- Which of `message.document` / `message.video` / `message.audio` is set
(the handler fires only for these three). -/
inductive MsgKind where
  | document
  | video
  | audio
  deriving DecidableEq

/-- The parts of an incoming Pyrogram message that `handle_file_input`
reads: the member kind, the declared file name (may be absent) and the
declared size. -/
structure IncomingMessage where
  kind : MsgKind
  file_name : Option String
  file_size : Nat
  deriving DecidableEq

/-- User-visible outcome of `handle_file_input`. -/
inductive FileReply where
  | tooLarge
  | noFileName
  | unsupported (ext : String)
  | accepted
  deriving DecidableEq

/-- `MKVToolNixBot.handle_file_input` (`src/bot.py` lines 118-179) as a pure
function of the incoming message and the user's current session (if any):
returns the new session state and the reply kind.  Note the size guard is
`message.document and message.document.file_size > MAX_FILE_SIZE`, so it
fires for document messages only. -/
def handle_file_input (maxFileSize : Nat) (msg : IncomingMessage)
    (sess : Option Session) : Option Session × FileReply :=
  if msg.kind = MsgKind.document ∧ msg.file_size > maxFileSize then
    (sess, FileReply.tooLarge)
  else
    match msg.file_name with
    | none => (sess, FileReply.noFileName)
    | some file_name =>
      let file_ext := pyLower (pySuffix file_name)
      match lookup_file_type file_ext with
      | none => (sess, FileReply.unsupported file_ext)
      | some file_type =>
        let s := sess.getD emptySession
        (some { s with
                  files := s.files ++
                    [{ file_name := file_name, file_type := file_type,
                       file_ext := file_ext,
                       language := detect_language file_name }] },
         FileReply.accepted)

/-! ## Action-selection handlers (`src/bot.py` lines 261-390)

Each handler acts on an existing session (`handle_callback_query` has
already checked the user has one).  The second component is the rejection
text passed to `callback_query.answer`, or `none` when the action is
accepted and the operation is recorded. -/

/-- `MKVToolNixBot.handle_extract_tracks` (lines 261-298), session part. -/
def handle_extract_tracks (s : Session) : Session × Option String :=
  if s.files.length ≠ 1 ∨ (s.files.headD default).file_type ≠ ("video") then
    (s, some ("Please send a single video file first."))
  else
    ({ s with current_operation := some ("extract_tracks") }, none)

/-- `MKVToolNixBot.handle_edit_metadata` (lines 360-390), session part. -/
def handle_edit_metadata (s : Session) : Session × Option String :=
  if s.files.length ≠ 1 ∨ (s.files.headD default).file_type ≠ ("video") then
    (s, some ("Please send a single video file first."))
  else
    ({ s with current_operation := some ("edit_metadata") }, none)

/-- `MKVToolNixBot.handle_mux_files` (lines 300-330), session part. -/
def handle_mux_files (s : Session) : Session × Option String :=
  if s.files.length < 2 then
    (s, some ("Please send at least 2 files to mux."))
  else
    ({ s with current_operation := some ("mux_files") }, none)

/-- `MKVToolNixBot.handle_merge_files` (lines 332-358), session part. -/
def handle_merge_files (s : Session) : Session × Option String :=
  if s.files.length < 2 then
    (s, some ("Please send at least 2 files to merge."))
  else
    ({ s with current_operation := some ("merge_files") }, none)

/-- User-visible outcome of `remove_last_file`. -/
inductive RemoveReply where
  | noFiles
  | allRemoved (removedName : String)
  | removedShowActions (removedName : String)
  deriving DecidableEq

/-- `MKVToolNixBot.remove_last_file` (`src/bot.py` lines 409-427): pop the
last staged file; delete the session when none remain, otherwise show the
action menu again.  `current_operation` is not touched. -/
def remove_last_file (s : Session) : Option Session × RemoveReply :=
  match s.files.getLast? with
  | none => (some s, RemoveReply.noFiles)
  | some removed =>
    let remaining := s.files.dropLast
    if remaining = [] then
      (none, RemoveReply.allRemoved removed.file_name)
    else
      (some { s with files := remaining },
       RemoveReply.removedShowActions removed.file_name)

/-! ## Event system

`handle_callback_query` (lines 227-259) answers "Session expired" and leaves
the (absent) state alone when the user has no session, then dispatches on the
callback data; `/cancel` and `/reset` (lines 100-116) delete the session. -/

/-- One inbound event for a single user. -/
inductive Event where
  | fileInput (msg : IncomingMessage)
  | cbExtractTracks
  | cbMuxFiles
  | cbMergeFiles
  | cbEditMetadata
  | cbAddAnotherFile
  | cbViewFiles
  | cbRemoveLastFile
  | cbCancelOperation
  | cmdCancel
  | cmdReset

/-- State transition of one user's session under one event, as implemented by
the registered handlers. -/
def stepEvent (maxFileSize : Nat) (st : Option Session) : Event → Option Session
  | Event.fileInput msg => (handle_file_input maxFileSize msg st).1
  | Event.cbExtractTracks => st.map (fun s => (handle_extract_tracks s).1)
  | Event.cbMuxFiles => st.map (fun s => (handle_mux_files s).1)
  | Event.cbMergeFiles => st.map (fun s => (handle_merge_files s).1)
  | Event.cbEditMetadata => st.map (fun s => (handle_edit_metadata s).1)
  | Event.cbAddAnotherFile => st
  | Event.cbViewFiles => st
  | Event.cbRemoveLastFile =>
    match st with
    | none => none
    | some s => (remove_last_file s).1
  | Event.cbCancelOperation => none
  | Event.cmdCancel => none
  | Event.cmdReset => none

/-- Session states reachable from the initial no-session state by any
sequence of events for this user. -/
inductive Reachable (maxFileSize : Nat) : Option Session → Prop where
  | init : Reachable maxFileSize none
  | step (st : Option Session) (e : Event) (h : Reachable maxFileSize st) :
      Reachable maxFileSize (stepEvent maxFileSize st e)

/-! ## Probe-output parser (`MKVToolNixBot.get_mkv_tracks`, lines 517-552)

The subprocess part is external; the parser takes the decoded stdout split
into lines.  A dict `{'id': ..., 'type': ..., 'codec': ..., 'language': ...}`
becomes `MkvTrack` with the optional keys as `Option`. -/

/-- One parsed track dict. -/
structure MkvTrack where
  id : Nat
  type : Option String := none
  codec : Option String := none
  language : Option String := none
  deriving DecidableEq

/-- The track-start test applied to a stripped line. -/
def isTrackStart (l : String) : Bool :=
  pyStartsWith ("+ A track") l

/-- The attribute branch of the parse loop, acting on the current track and
the stripped line (`line.split(":")[1]` is total here because each guard
string contains a colon). -/
def parseTrackLine (t : MkvTrack) (l : String) : MkvTrack :=
  if pyContains ("Track type:") l then
    { t with type := some (pyLower (pyStrip ((pySplit ':' l).getD 1 (""))))}
  else if pyContains ("Codec ID:") l then
    { t with codec := some (pyStrip ((pySplit ':' l).getD 1 (""))) }
  else if pyContains ("Language:") l then
    { t with language := some (pyStrip ((pySplit ':' l).getD 1 (""))) }
  else t

/-- The parse loop of `get_mkv_tracks`: accumulated `tracks` list and the
`current_track` under construction; a new marker first flushes the current
track, and end of input flushes the last one. -/
def parseTracksAux : List String → List MkvTrack → Option MkvTrack → List MkvTrack
  | [], tracks, curr =>
    match curr with
    | some t => tracks ++ [t]
    | none => tracks
  | line :: rest, tracks, curr =>
    let l := pyStrip line
    if isTrackStart l then
      let tracks' :=
        match curr with
        | some t => tracks ++ [t]
        | none => tracks
      parseTracksAux rest tracks' (some { id := tracks'.length + 1 })
    else
      match curr with
      | some t => parseTracksAux rest tracks (some (parseTrackLine t l))
      | none => parseTracksAux rest tracks none

/-- `get_mkv_tracks` applied to the decoded stdout lines of a zero-exit
probe run. -/
def get_mkv_tracks (stdout_lines : List String) : List MkvTrack :=
  parseTracksAux stdout_lines [] none

/-! ## Extract output collection (`MKVToolNixBot.extract_tracks`, lines
554-584)

After `mkvextract` exits zero the code checks, per requested track id, a
fixed ordered candidate-extension list and keeps the first output path that
exists.  The filesystem is a parameter `fileOnDisk`. -/

/-- The candidate extensions checked per track id, in order. -/
def candidate_extensions : List String :=
  [".mkv", ".mp4", ".aac", ".srt", ".ass"]

/-- `os.path.join` for a relative second component. -/
def pyJoin (dir name : String) : String :=
  if dir = ("") then name
  else if dir.toList.getLastD ' ' = '/' then dir ++ name
  else dir ++ ("/") ++ name

/-- The probe path `os.path.join(output_dir, f"track_{track_id}{ext}")`. -/
def trackOutputPath (output_dir : String) (track_id : Nat) (ext : String) : String :=
  pyJoin output_dir (("track_") ++ toString track_id ++ ext)

/-- One iteration of the collection loop at the end of `extract_tracks`:
append the first existing candidate path for this track id, or nothing. -/
def collect_step (fileOnDisk : String → Bool) (output_dir : String)
    (acc : List String) (track_id : Nat) : List String :=
  match candidate_extensions.find?
      (fun ext => fileOnDisk (trackOutputPath output_dir track_id ext)) with
  | some ext => acc ++ [trackOutputPath output_dir track_id ext]
  | none => acc

/-- The collection loop at the end of `extract_tracks`: for each requested
track id, append the first existing candidate path; ids with no existing
output contribute nothing. -/
def collect_extracted (fileOnDisk : String → Bool) (output_dir : String)
    (track_ids : List Nat) : List String :=
  track_ids.foldl (collect_step fileOnDisk output_dir) []

/-! ## Mux command builder (`MKVToolNixBot.mux_files`, lines 586-610) -/

/-- The option bag entries `mux_files` reads: `options.get('title')`. -/
structure MuxOptions where
  title : Option String := none
  deriving DecidableEq

/-- Truthiness of `options.get('title')`: absent and empty string are both
falsy. -/
def titleTruthy (options : MuxOptions) : Bool :=
  match options.title with
  | none => false
  | some t => !t.isEmpty

/-- The command list built by `mux_files`: the base invocation, then each
input file appended in order, then `--title` appended when the title option
is truthy. -/
def mux_files_command (files : List String) (output_file : String)
    (options : MuxOptions) : List String :=
  let command := [("mkvmerge"), ("-o"), output_file]
  let command := files.foldl (fun c f => c ++ [f]) command
  if titleTruthy options then
    command ++ [("--title"), options.title.getD ("")]
  else command

/-- `mux_files` as a function of its inputs and of the child process result
(exit code and decoded stderr): the command run and either the raised
`RuntimeError` text or the returned output path. -/
def mux_files (files : List String) (output_file : String) (options : MuxOptions)
    (exit_code : Int) (stderr_text : String) : List String × Except String String :=
  (mux_files_command files output_file options,
   if exit_code ≠ 0 then
     Except.error (("mkvmerge failed: ") ++ stderr_text)
   else
     Except.ok output_file)

/-! ## Download progress callback (`MKVToolNixBot.download_file`, lines
464-484)

The closure keeps `last_update` and `downloaded` as mutable state; times and
byte ratios are modelled over `ℚ`.  Python raises `ZeroDivisionError` when a
float division's divisor is zero, so the two division sites are guarded
explicitly: the `speed` line divides by `now - start_time` and then the
`percent` line divides by `total`. -/

/-- The mutable closure state of `progress`. -/
structure ProgressState where
  last_update : ℚ
  downloaded : Nat
  deriving DecidableEq

/-- What one call of the `progress` callback does. -/
inductive ProgressOutcome where
  | noUpdate
  | update (percent speed : ℚ)
  | zeroDivisionFault
  deriving DecidableEq

/-- One invocation of the `progress(current, total)` callback at wall-clock
time `now`: returns the new closure state and the outcome. -/
def progress_callback (start_time : ℚ) (st : ProgressState)
    (current total : Nat) (now : ℚ) : ProgressState × ProgressOutcome :=
  let st := { st with downloaded := current }
  if now - st.last_update ≥ 1 then
    if now - start_time = 0 then
      (st, ProgressOutcome.zeroDivisionFault)
    else if (total : ℚ) = 0 then
      (st, ProgressOutcome.zeroDivisionFault)
    else
      let speed := ((current : ℚ) / (now - start_time)) / 1024 / 1024
      let percent := ((current : ℚ) / (total : ℚ)) * 100
      ({ st with last_update := now }, ProgressOutcome.update percent speed)
  else
    (st, ProgressOutcome.noUpdate)

/-! ## Concrete fixtures -/

/-- A staged video file as `handle_file_input` builds it for `alpha.mkv`. -/
def fileAlpha : StagedFile :=
  { file_name := ("alpha.mkv"), file_type := ("video"),
    file_ext := (".mkv"), language := none }

/-- A staged subtitle file as `handle_file_input` builds it for `beta.srt`. -/
def fileBeta : StagedFile :=
  { file_name := ("beta.srt"), file_type := ("subtitles"),
    file_ext := (".srt"), language := none }

/-- A document message carrying `alpha.mkv`. -/
def demoMsg1 : IncomingMessage :=
  { kind := MsgKind.document, file_name := some ("alpha.mkv"), file_size := 5 }

/-- A document message carrying `beta.srt`. -/
def demoMsg2 : IncomingMessage :=
  { kind := MsgKind.document, file_name := some ("beta.srt"), file_size := 5 }

/-- The session reached by uploading `alpha.mkv` and `beta.srt` and then
choosing Mux. -/
def demoSession : Session :=
  { files := [fileAlpha, fileBeta],
    current_operation := some ("mux_files"), processing := false }

/-- A video (not document) message whose declared size exceeds the limit
used in the counterexample. -/
def oversizedVideoMsg : IncomingMessage :=
  { kind := MsgKind.video, file_name := some ("alpha.mkv"), file_size := 11 }

/-- A document message with an unsupported extension. -/
def unsupportedDocMsg : IncomingMessage :=
  { kind := MsgKind.document, file_name := some ("alpha.xyz"), file_size := 5 }

/-- Probe-report lines before the first track-start marker. -/
def probePre : List String :=
  [("junk"), ("| + Segment tracks"), ("Track type: video")]

/-- Probe-report lines from the first track-start marker on: two track
blocks, the second closed by end of input. -/
def probeTail : List String :=
  [("+ A track"), ("|  + Track type: video"),
   ("+ A track"), ("| + Language: eng")]

/-- A full probe report fixture. -/
def probeFixture : List String := probePre ++ probeTail

/-! ## Theorems -/

/-- First-match characterization of `List.find?`: it returns `x` exactly when
`x` sits at some position whose earlier elements all fail the predicate. -/
theorem find?_eq_some_iff_first {α : Type _} (p : α → Bool) :
    ∀ (l : List α) (x : α),
      l.find? p = some x ↔
        ∃ i, ∃ hi : i < l.length, l.get ⟨i, hi⟩ = x ∧ p x = true ∧
          ∀ y ∈ l.take i, p y = false := by
  intro l
  induction l with
  | nil => intro x; simp
  | cons a t ih =>
    intro x
    by_cases ha : p a = true
    · rw [List.find?_cons_of_pos _ ha]
      constructor
      · intro h
        injection h with h
        subst h
        exact ⟨0, by simp, by simp, ha, by simp⟩
      · rintro ⟨i, hi, hget, hpx, htake⟩
        match i with
        | 0 => simp at hget; rw [hget]
        | j + 1 =>
          have : p a = false := htake a (by simp [List.take_succ_cons])
          rw [ha] at this
          cases this
    · have ha' : ¬ p a := by simpa using ha
      rw [List.find?_cons_of_neg _ ha']
      rw [ih x]
      constructor
      · rintro ⟨i, hi, hget, hpx, htake⟩
        refine ⟨i + 1, by simpa using hi, by simpa using hget, hpx, ?_⟩
        intro y hy
        rw [List.take_succ_cons] at hy
        rcases List.mem_cons.1 hy with h | h
        · subst h; simpa using ha
        · exact htake y h
      · rintro ⟨i, hi, hget, hpx, htake⟩
        match i with
        | 0 =>
          simp at hget
          subst hget
          exact absurd hpx ha
        | j + 1 =>
          refine ⟨j, by simpa using hi, by simpa using hget, hpx, ?_⟩
          intro y hy
          exact htake y (by rw [List.take_succ_cons]; exact List.mem_cons_of_mem a hy)

/-- C5 counterexample: on `movie.en.hi.mkv` the code returns `hi` (the
language table is scanned in its fixed order and `hi` precedes `en`), while
the claim's left-to-right scan over the *segments* would return `en`. -/
theorem c5_counterexample :
    detect_language ("movie.en.hi.mkv") = some ("hi") ∧
    detect_language_leftmost_segment ("movie.en.hi.mkv") = some ("en") ∧
    detect_language ("movie.en.hi.mkv") ≠
      detect_language_leftmost_segment ("movie.en.hi.mkv") := by
  refine ⟨by decide, by decide, by decide⟩

/-- C5 (amended): `detect_language` lower-cases the name, splits the
extension-stripped stem on dots, and returns the canonical code of the first
entry of the fixed language table (`hi, en, ta, …` in that order) any of
whose spelling variants occurs among the segments — so when segments of two
different languages are present, the language earlier in the table wins, not
the leftmost segment; it returns `none` exactly when no table entry has a
variant among the segments. -/
theorem c5_detect_language_table_order (filename : String) :
    (∀ q, langEntryHit (langSegments filename) q = true ↔
        ∃ v ∈ q.2, v ∈ langSegments filename) ∧
    (∀ c, detect_language filename = some c ↔
      ∃ i, ∃ hi : i < LANGUAGE_CODES.length,
        (LANGUAGE_CODES.get ⟨i, hi⟩).1 = c ∧
        langEntryHit (langSegments filename) (LANGUAGE_CODES.get ⟨i, hi⟩) = true ∧
        ∀ q ∈ LANGUAGE_CODES.take i,
          langEntryHit (langSegments filename) q = false) ∧
    (detect_language filename = none ↔
      ∀ q ∈ LANGUAGE_CODES, langEntryHit (langSegments filename) q = false) := by
  refine ⟨?_, ?_, ?_⟩
  · intro q
    simp [langEntryHit, List.any_eq_true, List.elem_iff]
  · intro c
    unfold detect_language
    rw [Option.map_eq_some']
    constructor
    · rintro ⟨q, hq, rfl⟩
      obtain ⟨i, hi, hget, hpx, htake⟩ := (find?_eq_some_iff_first _ _ _).1 hq
      exact ⟨i, hi, by rw [hget], by rw [hget]; exact hpx, htake⟩
    · rintro ⟨i, hi, h1, h2, h3⟩
      exact ⟨LANGUAGE_CODES.get ⟨i, hi⟩,
        (find?_eq_some_iff_first _ _ _).2 ⟨i, hi, rfl, h2, h3⟩, h1⟩
  · unfold detect_language
    rw [Option.map_eq_none']
    rw [List.find?_eq_none]
    constructor
    · intro h q hq
      simpa using h q hq
    · intro h q hq
      simp [h q hq]

/-- The collection loop of `extract_tracks`, run from any accumulator, keeps
the accumulator and appends per track id the first existing candidate path
(nothing when none exists). -/
theorem collect_foldl (fileOnDisk : String → Bool) (output_dir : String) :
    ∀ (track_ids : List Nat) (acc : List String),
      track_ids.foldl (collect_step fileOnDisk output_dir) acc =
        acc ++ track_ids.filterMap (fun track_id =>
          (candidate_extensions.find?
              (fun ext => fileOnDisk (trackOutputPath output_dir track_id ext))).map
            (trackOutputPath output_dir track_id)) := by
  intro track_ids
  induction track_ids with
  | nil => intro acc; simp
  | cons tid rest ih =>
    intro acc
    rw [List.foldl_cons, List.filterMap_cons]
    cases hfind : candidate_extensions.find?
        (fun ext => fileOnDisk (trackOutputPath output_dir tid ext)) with
    | none => rw [show collect_step fileOnDisk output_dir acc tid = acc from by
        simp [collect_step, hfind], ih]; simp
    | some ext => rw [show collect_step fileOnDisk output_dir acc tid =
        acc ++ [trackOutputPath output_dir tid ext] from by
        simp [collect_step, hfind], ih]; simp

/-- C7: for every file-existence predicate and requested track-id list, the
result of the post-run collection is exactly: per requested id, the first
candidate extension (in the fixed order `.mkv, .mp4, .aac, .srt, .ass`)
whose output path exists, ids with no existing output silently omitted
(`filterMap` drops the `none`s); in particular requesting `[1, 2]` when only
track 1's `.mkv` output exists yields the one-element result. -/
theorem c7_extract_first_existing_outputs (fileOnDisk : String → Bool)
    (output_dir : String) (track_ids : List Nat) :
    collect_extracted fileOnDisk output_dir track_ids =
      track_ids.filterMap (fun track_id =>
        (candidate_extensions.find?
            (fun ext => fileOnDisk (trackOutputPath output_dir track_id ext))).map
          (trackOutputPath output_dir track_id)) ∧
    collect_extracted (fun p => p == ("out/track_1.mkv")) ("out") [1, 2] =
      [("out/track_1.mkv")] := by
  constructor
  · rw [collect_extracted, collect_foldl]
    simp
  · decide

/-- Pushing elements one by one onto the back, as Python's `append` loop
does, concatenates. -/
theorem foldl_append_singleton {α : Type _} :
    ∀ (l : List α) (base : List α),
      l.foldl (fun c f => c ++ [f]) base = base ++ l := by
  intro l
  induction l with
  | nil => intro base; simp
  | cons a t ih => intro base; rw [List.foldl_cons, ih]; simp

/-- C8 counterexample: with a title set, the built command places `--title`
*after* the input paths, not between the output flag and the inputs as the
claim states. -/
theorem c8_counterexample :
    mux_files_command [("a.mkv"), ("b.srt")] ("out.mkv") { title := some ("T") } =
      [("mkvmerge"), ("-o"), ("out.mkv"), ("a.mkv"), ("b.srt"), ("--title"), ("T")] ∧
    mux_files_command [("a.mkv"), ("b.srt")] ("out.mkv") { title := some ("T") } ≠
      [("mkvmerge"), ("-o"), ("out.mkv"), ("--title"), ("T"), ("a.mkv"), ("b.srt")] := by
  refine ⟨by decide, by decide⟩

/-- C8 (amended): the combine operation builds
`mkvmerge -o <outputPath> <inputPath> [<inputPath> ...] [--title <title>]` —
output flag first, then the input paths in session order, then the title
flag appended only when a title option was set — raises an error carrying
the captured stderr on non-zero exit, and returns the output path on
success. -/
theorem c8_combine_command (files : List String) (output_file : String)
    (options : MuxOptions) (exit_code : Int) (stderr_text : String) :
    (mux_files files output_file options exit_code stderr_text).1 =
      [("mkvmerge"), ("-o"), output_file] ++ files ++
        (if titleTruthy options then [("--title"), options.title.getD ("")]
         else []) ∧
    (exit_code ≠ 0 →
      (mux_files files output_file options exit_code stderr_text).2 =
        Except.error (("mkvmerge failed: ") ++ stderr_text)) ∧
    (exit_code = 0 →
      (mux_files files output_file options exit_code stderr_text).2 =
        Except.ok output_file) := by
  refine ⟨?_, ?_, ?_⟩
  · rw [mux_files]
    rw [mux_files_command]
    rw [foldl_append_singleton]
    cases h : titleTruthy options <;> simp [h]
  · intro h
    simp [mux_files, h]
  · intro h
    simp [mux_files, h]

/-- C8 witness: a failing run surfaces the captured stderr. -/
theorem c8_combine_command_witness :
    (mux_files [("a.mkv")] ("out.mkv") { title := none } 1 ("boom")).2 =
      Except.error (("mkvmerge failed: ") ++ ("boom")) :=
  (c8_combine_command [("a.mkv")] ("out.mkv") { title := none } 1 ("boom")).2.1
    (by decide)

/-- C10: the `--title` flag is emitted only when the option bag's title is
truthy, i.e. present and non-empty; when the title is absent or the empty
string the command is just the base invocation plus the inputs, so an
explicitly set empty title builds the same command line as no title at
all. -/
theorem c10_title_truthiness (files : List String) (output_file : String)
    (options : MuxOptions) :
    (titleTruthy options = true ↔ ∃ t, options.title = some t ∧ t ≠ ("")) ∧
    (titleTruthy options = false →
      mux_files_command files output_file options =
        [("mkvmerge"), ("-o"), output_file] ++ files) ∧
    mux_files_command files output_file { title := some ("") } =
      mux_files_command files output_file { title := none } := by
  refine ⟨?_, ?_, ?_⟩
  · cases ht : options.title with
    | none => simp [titleTruthy, ht]
    | some t =>
      simp only [titleTruthy, ht]
      constructor
      · intro h
        refine ⟨t, rfl, ?_⟩
        intro he
        subst he
        exact absurd h (by decide)
      · rintro ⟨u, hu, hne⟩
        injection hu with hu
        subst hu
        have hemp : t.isEmpty = false := by
          cases hemp : t.isEmpty
          · rfl
          · exact absurd ((String.isEmpty_iff t).1 hemp) hne
        simp [hemp]
  · intro h
    rw [mux_files_command, foldl_append_singleton, h]
    simp
  · rw [mux_files_command, mux_files_command]
    simp [titleTruthy]
    decide

/-- C10 witness: an empty-string title emits no flag. -/
theorem c10_title_truthiness_witness :
    mux_files_command [("x")] ("o") { title := some ("") } =
      [("mkvmerge"), ("-o"), ("o")] ++ [("x")] :=
  (c10_title_truthiness [("x")] ("o") { title := some ("") }).2.1 (by decide)

/-- C9 counterexample: a periodic callback that is due (one second elapsed
since the last update) with declared total `0` hits the unguarded
`(current / total) * 100` division and faults with `ZeroDivisionError`; no
bytes-only fallback exists. -/
theorem c9_counterexample :
    (progress_callback 0 { last_update := 0, downloaded := 0 } 5 0 2).2 =
      ProgressOutcome.zeroDivisionFault := by
  norm_num [progress_callback]

/-- C9 (amended): the periodic progress computation divides by the declared
total unconditionally — when an update is due it faults (Python
`ZeroDivisionError`) exactly when the total is zero or no wall-clock time
has elapsed since start, and otherwise reports
`percent = current / total * 100` and the byte throughput; when no update
is due it only records the transferred byte count. -/
theorem c9_progress_divides_by_total (start_time now : ℚ) (st : ProgressState)
    (current total : Nat) :
    (now - st.last_update ≥ 1 →
      ((progress_callback start_time st current total now).2 =
          ProgressOutcome.zeroDivisionFault ↔
        now = start_time ∨ total = 0)) ∧
    (¬ now - st.last_update ≥ 1 →
      progress_callback start_time st current total now =
        ({ st with downloaded := current }, ProgressOutcome.noUpdate)) ∧
    (now - st.last_update ≥ 1 → now ≠ start_time → 0 < total →
      (progress_callback start_time st current total now).2 =
        ProgressOutcome.update (((current : ℚ) / (total : ℚ)) * 100)
          ((((current : ℚ) / (now - start_time)) / 1024) / 1024)) := by
  refine ⟨?_, ?_, ?_⟩
  · intro hdue
    rw [progress_callback]
    simp only [hdue, if_pos]
    by_cases h1 : now - start_time = 0
    · simp [h1, sub_eq_zero.1 h1]
    · have h1' : now ≠ start_time := fun he => h1 (by rw [he, sub_self])
      by_cases h2 : (total : ℚ) = 0
      · have h2' : total = 0 := by exact_mod_cast h2
        simp [h1, h2, h2']
      · have h2' : total ≠ 0 := fun he => h2 (by exact_mod_cast he)
        simp [h1, h2, h1', h2']
  · intro hdue
    rw [progress_callback]
    simp [hdue]
  · intro hdue hne hpos
    have h1 : ¬ now - start_time = 0 := fun h => hne (sub_eq_zero.1 h)
    have h2 : ¬ (total : ℚ) = 0 := by
      exact_mod_cast Nat.pos_iff_ne_zero.1 hpos
    rw [progress_callback]
    simp [hdue, h1, h2]

/-- The attribute branch never changes the track id. -/
theorem parseTrackLine_id (t : MkvTrack) (l : String) :
    (parseTrackLine t l).id = t.id := by
  rw [parseTrackLine]
  split_ifs <;> rfl

/-- Marker count of a line list. -/
def markerCount (lines : List String) : Nat :=
  (lines.filter (fun line => isTrackStart (pyStrip line))).length

/-- Parse-loop invariant, open-block case: with `tracks` already numbered
`1..|tracks|` and the open track numbered next, the loop emits ids
`1..(|tracks| + 1 + markers)`. -/
theorem parseTracksAux_some :
    ∀ (lines : List String) (tracks : List MkvTrack) (t : MkvTrack),
      tracks.map MkvTrack.id = List.range' 1 tracks.length →
      t.id = tracks.length + 1 →
      (parseTracksAux lines tracks (some t)).map MkvTrack.id =
        List.range' 1 (tracks.length + 1 + markerCount lines) := by
  intro lines
  induction lines with
  | nil =>
    intro tracks t h1 h2
    simp only [parseTracksAux, markerCount, List.filter_nil, List.length_nil]
    rw [List.map_append, h1]
    simp only [List.map_cons, List.map_nil, h2, Nat.add_zero]
    rw [List.range'_1_concat, Nat.add_comm 1 tracks.length]
  | cons line rest ih =>
    intro tracks t h1 h2
    simp only [parseTracksAux]
    by_cases hm : isTrackStart (pyStrip line)
    · rw [if_pos hm]
      have h1' : (tracks ++ [t]).map MkvTrack.id =
          List.range' 1 (tracks ++ [t]).length := by
        rw [List.map_append, h1]
        simp only [List.map_cons, List.map_nil, h2, List.length_append,
          List.length_cons, List.length_nil, Nat.zero_add]
        rw [List.range'_1_concat, Nat.add_comm 1 tracks.length]
      have hrec := ih (tracks ++ [t]) { id := (tracks ++ [t]).length + 1 } h1' rfl
      rw [hrec]
      have hmc : markerCount (line :: rest) = markerCount rest + 1 := by
        simp [markerCount, hm]
      rw [hmc]
      congr 1
      simp
      omega
    · rw [if_neg hm]
      have h2' : (parseTrackLine t (pyStrip line)).id = tracks.length + 1 := by
        rw [parseTrackLine_id]; exact h2
      have hrec := ih tracks (parseTrackLine t (pyStrip line)) h1 h2'
      rw [hrec]
      have hmc : markerCount (line :: rest) = markerCount rest := by
        simp [markerCount, hm]
      rw [hmc]

/-- Parse-loop invariant, no-open-block case from the empty start state. -/
theorem parseTracksAux_none :
    ∀ lines : List String,
      (parseTracksAux lines [] none).map MkvTrack.id =
        List.range' 1 (markerCount lines) := by
  intro lines
  induction lines with
  | nil => simp [parseTracksAux, markerCount]
  | cons line rest ih =>
    simp only [parseTracksAux]
    by_cases hm : isTrackStart (pyStrip line)
    · rw [if_pos hm]
      simp only [List.length_nil, Nat.zero_add]
      have hrec := parseTracksAux_some rest [] { id := 1 } (by simp) (by simp)
      simp only [List.length_nil, Nat.zero_add] at hrec
      rw [hrec]
      have hmc : markerCount (line :: rest) = markerCount rest + 1 := by
        simp [markerCount, hm]
      rw [hmc]
      congr 1
      omega
    · rw [if_neg hm]
      rw [ih]
      have hmc : markerCount (line :: rest) = markerCount rest := by
        simp [markerCount, hm]
      rw [hmc]

/-- Lines before the first track-start marker are skipped outright. -/
theorem parseTracksAux_skip_nonmarkers :
    ∀ (pre rest : List String),
      (∀ l ∈ pre, isTrackStart (pyStrip l) = false) →
      parseTracksAux (pre ++ rest) [] none = parseTracksAux rest [] none := by
  intro pre
  induction pre with
  | nil => intro rest _; rfl
  | cons a t ih =>
    intro rest h
    have ha := h a (List.mem_cons_self a t)
    rw [List.cons_append]
    simp only [parseTracksAux]
    rw [if_neg (by simp [ha])]
    exact ih rest (fun l hl => h l (List.mem_cons_of_mem a hl))

/-- C6: for every probe report, the parser returns one track per track-start
marker line, with ids exactly `1..N` in report order (`List.range' 1 N`),
the final block being closed at end of input; and any prefix of the report
containing no marker line — attribute lines included — contributes no
track. -/
theorem c6_probe_track_numbering (lines : List String) :
    (get_mkv_tracks lines).map MkvTrack.id = List.range' 1 (markerCount lines) ∧
    ∀ pre rest, lines = pre ++ rest →
      (∀ l ∈ pre, isTrackStart (pyStrip l) = false) →
      get_mkv_tracks lines = get_mkv_tracks rest := by
  constructor
  · exact parseTracksAux_none lines
  · intro pre rest hsplit hpre
    rw [hsplit, get_mkv_tracks, get_mkv_tracks,
      parseTracksAux_skip_nonmarkers pre rest hpre]

/-- C6 witness: on the fixture report with three junk/attribute lines and
then two track blocks, the leading lines contribute nothing and the ids come
out as `[1, 2]`. -/
theorem c6_probe_track_numbering_witness :
    get_mkv_tracks probeFixture = get_mkv_tracks probeTail ∧
    (get_mkv_tracks probeFixture).map MkvTrack.id = [1, 2] :=
  ⟨(c6_probe_track_numbering probeFixture).2 probePre probeTail rfl (by decide),
   by decide⟩

/-- C9 witness: a due update with positive total yields the percent and
throughput report. -/
theorem c9_progress_witness :
    (progress_callback 0 { last_update := 0, downloaded := 0 } 5 10 2).2 =
      ProgressOutcome.update (((5 : ℚ) / (10 : ℚ)) * 100)
        ((((5 : ℚ) / (2 - 0)) / 1024) / 1024) :=
  (c9_progress_divides_by_total 0 2 { last_update := 0, downloaded := 0 } 5
      10).2.2 (by norm_num) (by norm_num) (by norm_num)

/-- C2: extract-tracks and edit-metadata record their operation exactly when
the session holds exactly one file whose kind is video, and mux and merge
exactly when it holds at least two files; a violated precondition answers
with the rejection text and leaves the session untouched, and a satisfied
one only records the operation. -/
theorem c2_action_preconditions (s : Session) :
    ((handle_extract_tracks s).2 = none ↔
      s.files.length = 1 ∧ (s.files.headD default).file_type = ("video")) ∧
    ((handle_extract_tracks s).2 ≠ none →
      handle_extract_tracks s =
        (s, some ("Please send a single video file first."))) ∧
    ((handle_extract_tracks s).2 = none →
      handle_extract_tracks s =
        ({ s with current_operation := some ("extract_tracks") }, none)) ∧
    ((handle_edit_metadata s).2 = none ↔
      s.files.length = 1 ∧ (s.files.headD default).file_type = ("video")) ∧
    ((handle_edit_metadata s).2 ≠ none →
      handle_edit_metadata s =
        (s, some ("Please send a single video file first."))) ∧
    ((handle_edit_metadata s).2 = none →
      handle_edit_metadata s =
        ({ s with current_operation := some ("edit_metadata") }, none)) ∧
    ((handle_mux_files s).2 = none ↔ 2 ≤ s.files.length) ∧
    ((handle_mux_files s).2 ≠ none →
      handle_mux_files s = (s, some ("Please send at least 2 files to mux."))) ∧
    ((handle_mux_files s).2 = none →
      handle_mux_files s =
        ({ s with current_operation := some ("mux_files") }, none)) ∧
    ((handle_merge_files s).2 = none ↔ 2 ≤ s.files.length) ∧
    ((handle_merge_files s).2 ≠ none →
      handle_merge_files s = (s, some ("Please send at least 2 files to merge."))) ∧
    ((handle_merge_files s).2 = none →
      handle_merge_files s =
        ({ s with current_operation := some ("merge_files") }, none)) := by
  refine ⟨?_, ?_, ?_, ?_, ?_, ?_, ?_, ?_, ?_, ?_, ?_, ?_⟩
  · rw [handle_extract_tracks]
    split_ifs with hcond
    · constructor
      · intro he; cases he
      · intro hrhs
        rcases hcond with hc | hc
        · exact absurd hrhs.1 hc
        · exact absurd hrhs.2 hc
    · push_neg at hcond
      exact iff_of_true rfl ⟨hcond.1, hcond.2⟩
  · rw [handle_extract_tracks]
    split_ifs with hcond
    · intro _; rfl
    · intro hne; simp at hne
  · rw [handle_extract_tracks]
    split_ifs with hcond
    · intro he; cases he
    · intro _; rfl
  · rw [handle_edit_metadata]
    split_ifs with hcond
    · constructor
      · intro he; cases he
      · intro hrhs
        rcases hcond with hc | hc
        · exact absurd hrhs.1 hc
        · exact absurd hrhs.2 hc
    · push_neg at hcond
      exact iff_of_true rfl ⟨hcond.1, hcond.2⟩
  · rw [handle_edit_metadata]
    split_ifs with hcond
    · intro _; rfl
    · intro hne; simp at hne
  · rw [handle_edit_metadata]
    split_ifs with hcond
    · intro he; cases he
    · intro _; rfl
  · rw [handle_mux_files]
    split_ifs with hcond
    · constructor
      · intro he; cases he
      · intro hrhs; omega
    · exact iff_of_true rfl (by omega)
  · rw [handle_mux_files]
    split_ifs with hcond
    · intro _; rfl
    · intro hne; simp at hne
  · rw [handle_mux_files]
    split_ifs with hcond
    · intro he; cases he
    · intro _; rfl
  · rw [handle_merge_files]
    split_ifs with hcond
    · constructor
      · intro he; cases he
      · intro hrhs; omega
    · exact iff_of_true rfl (by omega)
  · rw [handle_merge_files]
    split_ifs with hcond
    · intro _; rfl
    · intro hne; simp at hne
  · rw [handle_merge_files]
    split_ifs with hcond
    · intro he; cases he
    · intro _; rfl

/-- C2 witness: on a two-file session with Mux chosen, extract-tracks is
rejected and the session is left unchanged. -/
theorem c2_action_preconditions_witness :
    handle_extract_tracks demoSession =
      (demoSession, some ("Please send a single video file first.")) :=
  (c2_action_preconditions demoSession).2.1 (by decide)

/-- C3 counterexample: a video message whose declared size exceeds the
configured maximum is not rejected — the size guard tests
`message.document` first, so non-document file events bypass it and the
file is appended. -/
theorem c3_counterexample :
    10 < oversizedVideoMsg.file_size ∧
    (handle_file_input 10 oversizedVideoMsg none).2 = FileReply.accepted ∧
    (handle_file_input 10 oversizedVideoMsg none).1 =
      some { emptySession with files := [fileAlpha] } := by
  refine ⟨by decide, by decide, by decide⟩

/-- C3 (amended): an incoming file event is rejected as too large exactly
when it is a *document* message whose declared size exceeds the maximum
(video and audio messages bypass the size check); it is rejected as
unsupported when the lower-cased extension of its name is in no supported
set; every rejection leaves the session unchanged (or absent); otherwise
the classified file is appended to the (possibly fresh) session. -/
theorem c3_file_validation (maxFileSize : Nat) (msg : IncomingMessage)
    (sess : Option Session) :
    ((handle_file_input maxFileSize msg sess).2 = FileReply.tooLarge ↔
      msg.kind = MsgKind.document ∧ maxFileSize < msg.file_size) ∧
    (∀ e, (handle_file_input maxFileSize msg sess).2 = FileReply.unsupported e →
      ∃ name, msg.file_name = some name ∧ e = pyLower (pySuffix name) ∧
        lookup_file_type e = none) ∧
    ((handle_file_input maxFileSize msg sess).2 ≠ FileReply.accepted →
      (handle_file_input maxFileSize msg sess).1 = sess) ∧
    ((handle_file_input maxFileSize msg sess).2 = FileReply.accepted →
      ∃ name file_type,
        msg.file_name = some name ∧
        lookup_file_type (pyLower (pySuffix name)) = some file_type ∧
        (handle_file_input maxFileSize msg sess).1 =
          some { sess.getD emptySession with
                   files := (sess.getD emptySession).files ++
                     [{ file_name := name, file_type := file_type,
                        file_ext := pyLower (pySuffix name),
                        language := detect_language name }] }) := by
  by_cases hbig : msg.kind = MsgKind.document ∧ msg.file_size > maxFileSize
  · simp only [handle_file_input, if_pos hbig]
    refine ⟨by simpa using hbig, by simp, by simp, by simp⟩
  · simp only [handle_file_input, if_neg hbig]
    cases hname : msg.file_name with
    | none =>
      refine ⟨by simp [hbig], by simp, by simp, by simp⟩
    | some name =>
      cases hlook : lookup_file_type (pyLower (pySuffix name)) with
      | none =>
        simp only [hlook]
        refine ⟨by simp [hbig], ?_, by simp, by simp⟩
        intro e he
        injection he with he
        exact ⟨name, rfl, he.symm, by rw [← he]; exact hlook⟩
      | some file_type =>
        simp only [hlook]
        refine ⟨by simp [hbig], by simp, by simp, ?_⟩
        intro _
        exact ⟨name, file_type, rfl, hlook, rfl⟩

/-- C3 witness: an unsupported document is rejected and the absent session
stays absent. -/
theorem c3_file_validation_witness :
    (handle_file_input 10 unsupportedDocMsg none).1 = none :=
  (c3_file_validation 10 unsupportedDocMsg none).2.2.1 (by decide)

/-- C4 counterexample: removing one of two staged files keeps the session
but does *not* clear the chosen operation — `current_operation` is still
`mux_files` afterwards, where the claim says it is reset. -/
theorem c4_counterexample :
    (remove_last_file demoSession).1 =
      some { demoSession with files := [fileAlpha] } ∧
    ((remove_last_file demoSession).1.map Session.current_operation) =
      some (some ("mux_files")) := by
  refine ⟨by decide, by decide⟩

/-- C4 (amended): the remove-last-file event removes the most-recently-added
staged file (the reply names the popped last file and the remaining list is
`dropLast`); if no files remain the session is deleted, and otherwise the
session returns to collecting files with the current operation left
unchanged (not cleared). -/
theorem c4_remove_last (s : Session) (h : s.files ≠ []) :
    (s.files.length = 1 →
      remove_last_file s =
        (none, RemoveReply.allRemoved (s.files.getLast h).file_name)) ∧
    (2 ≤ s.files.length →
      remove_last_file s =
        (some { s with files := s.files.dropLast },
         RemoveReply.removedShowActions (s.files.getLast h).file_name)) ∧
    (∀ s', (remove_last_file s).1 = some s' →
      s'.current_operation = s.current_operation ∧
      s'.files = s.files.dropLast) := by
  have hlast : s.files.getLast? = some (s.files.getLast h) :=
    List.getLast?_eq_getLast s.files h
  have hlen := List.length_dropLast s.files
  have hpos : 0 < s.files.length := List.length_pos.2 h
  rw [remove_last_file, hlast]
  simp only
  refine ⟨?_, ?_, ?_⟩
  · intro h1
    have hd : s.files.dropLast = [] :=
      List.eq_nil_of_length_eq_zero (by omega)
    rw [if_pos hd]
  · intro h2
    have hd : ¬ s.files.dropLast = [] := by
      intro he
      rw [he] at hlen
      simp at hlen
      omega
    rw [if_neg hd]
  · intro s' hs'
    by_cases hd : s.files.dropLast = []
    · rw [if_pos hd] at hs'
      cases hs'
    · rw [if_neg hd] at hs'
      injection hs' with hs'
      rw [← hs']
      exact ⟨rfl, rfl⟩

/-- C4 witness: removing from the two-file session keeps the session, drops
the last file, and names it in the reply. -/
theorem c4_remove_last_witness :
    remove_last_file demoSession =
      (some { demoSession with files := [fileAlpha] },
       RemoveReply.removedShowActions ("beta.srt")) := by
  have happ := (c4_remove_last demoSession (by decide)).2.1 (by decide)
  rw [happ]
  decide

/-- Action selection never touches the staged-file list. -/
theorem handle_extract_tracks_files (s : Session) :
    ((handle_extract_tracks s).1).files = s.files := by
  rw [handle_extract_tracks]; split_ifs <;> rfl

/-- Action selection never touches the staged-file list. -/
theorem handle_edit_metadata_files (s : Session) :
    ((handle_edit_metadata s).1).files = s.files := by
  rw [handle_edit_metadata]; split_ifs <;> rfl

/-- Action selection never touches the staged-file list. -/
theorem handle_mux_files_files (s : Session) :
    ((handle_mux_files s).1).files = s.files := by
  rw [handle_mux_files]; split_ifs <;> rfl

/-- Action selection never touches the staged-file list. -/
theorem handle_merge_files_files (s : Session) :
    ((handle_merge_files s).1).files = s.files := by
  rw [handle_merge_files]; split_ifs <;> rfl

/-- `handle_file_input` either leaves the state alone or produces a session
whose file list is non-empty (something was just appended). -/
theorem handle_file_input_fst (maxFileSize : Nat) (msg : IncomingMessage)
    (sess : Option Session) :
    (handle_file_input maxFileSize msg sess).1 = sess ∨
    ∃ s', (handle_file_input maxFileSize msg sess).1 = some s' ∧
      s'.files ≠ [] := by
  by_cases hbig : msg.kind = MsgKind.document ∧ msg.file_size > maxFileSize
  · left; simp [handle_file_input, hbig]
  · cases hname : msg.file_name with
    | none => left; simp [handle_file_input, hbig, hname]
    | some name =>
      cases hlook : lookup_file_type (pyLower (pySuffix name)) with
      | none => left; simp [handle_file_input, hbig, hname, hlook]
      | some file_type =>
        right
        exact ⟨{ (sess.getD emptySession) with
                   files := (sess.getD emptySession).files ++
                     [{ file_name := name, file_type := file_type,
                        file_ext := pyLower (pySuffix name),
                        language := detect_language name }] },
               by simp [handle_file_input, hbig, hname, hlook],
               by simp⟩

/-- Every reachable present session has at least one staged file (sessions
are created only by accepting a file, and the one-file-to-zero removal
deletes the session). -/
theorem reachable_files_ne_nil (maxFileSize : Nat) (st : Option Session)
    (h : Reachable maxFileSize st) : ∀ s, st = some s → s.files ≠ [] := by
  induction h with
  | init => intro s hs; cases hs
  | step st e hr ih =>
    intro s hs
    cases e with
    | fileInput msg =>
      simp only [stepEvent] at hs
      rcases handle_file_input_fst maxFileSize msg st with h1 | ⟨s', h1, h2⟩
      · rw [h1] at hs
        exact ih s hs
      · rw [h1] at hs
        injection hs with hs
        rw [← hs]
        exact h2
    | cbExtractTracks =>
      simp only [stepEvent] at hs
      rcases Option.map_eq_some'.1 hs with ⟨s0, hs0, hf⟩
      rw [← hf, handle_extract_tracks_files]
      exact ih s0 hs0
    | cbMuxFiles =>
      simp only [stepEvent] at hs
      rcases Option.map_eq_some'.1 hs with ⟨s0, hs0, hf⟩
      rw [← hf, handle_mux_files_files]
      exact ih s0 hs0
    | cbMergeFiles =>
      simp only [stepEvent] at hs
      rcases Option.map_eq_some'.1 hs with ⟨s0, hs0, hf⟩
      rw [← hf, handle_merge_files_files]
      exact ih s0 hs0
    | cbEditMetadata =>
      simp only [stepEvent] at hs
      rcases Option.map_eq_some'.1 hs with ⟨s0, hs0, hf⟩
      rw [← hf, handle_edit_metadata_files]
      exact ih s0 hs0
    | cbAddAnotherFile =>
      simp only [stepEvent] at hs
      exact ih s hs
    | cbViewFiles =>
      simp only [stepEvent] at hs
      exact ih s hs
    | cbRemoveLastFile =>
      simp only [stepEvent] at hs
      cases hst : st with
      | none => rw [hst] at hs; cases hs
      | some s0 =>
        rw [hst] at hs
        have h0 := ih s0 hst
        simp only [remove_last_file] at hs
        cases hl : s0.files.getLast? with
        | none =>
          exact absurd (List.getLast?_eq_none_iff.1 hl) h0
        | some r =>
          rw [hl] at hs
          simp only at hs
          by_cases hd : s0.files.dropLast = []
          · rw [if_pos hd] at hs
            cases hs
          · rw [if_neg hd] at hs
            injection hs with hs
            rw [← hs]
            simpa using hd
    | cbCancelOperation =>
      simp only [stepEvent] at hs
      cases hs
    | cmdCancel =>
      simp only [stepEvent] at hs
      cases hs
    | cmdReset =>
      simp only [stepEvent] at hs
      cases hs

/-- C1: in every session state reachable through any sequence of event
handlers, a set (non-null) current operation implies at least one staged
file — no reachable session has an operation chosen but zero staged
files (in fact every reachable present session has a staged file). -/
theorem c1_session_invariant (maxFileSize : Nat) (st : Option Session)
    (h : Reachable maxFileSize st) (s : Session) (hs : st = some s)
    (hop : s.current_operation ≠ none) : 1 ≤ s.files.length := by
  have hne := reachable_files_ne_nil maxFileSize st h s hs
  have hpos := List.length_pos.2 hne
  omega

/-- C1 witness: the session reached by uploading two files and choosing Mux
has its operation set and indeed holds staged files. -/
theorem c1_session_invariant_witness : 1 ≤ demoSession.files.length :=
  c1_session_invariant 100
    (stepEvent 100
      (stepEvent 100 (stepEvent 100 none (Event.fileInput demoMsg1))
        (Event.fileInput demoMsg2))
      Event.cbMuxFiles)
    (Reachable.step _ Event.cbMuxFiles
      (Reachable.step _ (Event.fileInput demoMsg2)
        (Reachable.step _ (Event.fileInput demoMsg1) Reachable.init)))
    demoSession (by decide) (by decide)

end MKVBot
